import Mathlib

/-!
Verification of the ProcessHandle abstraction of the k0s repository
(package `internal/os/windows`, exercised by `prochandle_test.go`).

The implementation file of the package is not part of the source snapshot
(only its test file is), so the component is modelled here from the
natural-language specification: its error taxonomy (spec section 7), its
operations Open / Close / Terminate / IsTerminated / Environ (sections 4
and 6), and the environment-block parser with its torn-read precondition
(section 4.4).  The model is a shallow embedding: every operation is a
pure function of the handle state together with an explicit view of the
target process observed at the instant of the call, and the cross-process
memory copy is a function that returns either the complete buffer or a
short-copy signal, exactly as the design notes require.
-/

namespace ProcWin

/-- Modelled from the spec: the error taxonomy of section 7 for the missing
`prochandle` implementation: `NotFound` (no such process at open time),
`PermissionDenied`, `AlreadyClosed` (double close), `AlreadyDone`
(operation after the target has exited, returned uniformly by `Terminate`
and `Environ`), `ParseFailure` (malformed non-torn environment block) and
`OsFailure` (unexpected syscall errors). -/
inductive ProcError where
  | notFound
  | permissionDenied
  | alreadyClosed
  | alreadyDone
  | parseFailure
  | osFailure
deriving DecidableEq, Repr

/-- Modelled from the spec and `prochandle_test.go`: the Go standard-library
sentinel errors that the test matches with `errors.Is`:
`fs.ErrClosed`, `syscall.ESRCH` and `os.ErrProcessDone`. -/
inductive Sentinel where
  | fsErrClosed
  | syscallESRCH
  | osErrProcessDone
deriving DecidableEq, Repr

/-- Modelled from the spec and `prochandle_test.go`: which distinguished
error matches which Go sentinel under `errors.Is`.  The double-close error
matches `fs.ErrClosed`, the no-such-process error matches `syscall.ESRCH`,
and the already-done error matches `os.ErrProcessDone`. -/
def errorsIs : ProcError → Sentinel → Bool
  | ProcError.alreadyClosed, Sentinel.fsErrClosed => true
  | ProcError.notFound, Sentinel.syscallESRCH => true
  | ProcError.alreadyDone, Sentinel.osErrProcessDone => true
  | _, _ => false

/-- Modelled from the spec: a ProcessHandle (section 3) holds the immutable
PID it was opened against and a binary, monotonic `Open`/`Closed` state,
represented by the `closed` flag. -/
structure ProcessHandle where
  pid : Nat
  closed : Bool
deriving DecidableEq, Repr

/-- Modelled from the spec: the observable state of the external target
process: whether it is running, and the exit status an external wait
observes once it has exited. -/
structure ProcState where
  alive : Bool
  exitCode : Int
deriving DecidableEq, Repr

/-- Modelled from the spec: the view of the target taken by `Environ` at
the instant of the call: whether the target is still alive when the read
begins, the raw environment block laid out in its address space, and how
many bytes the cross-process memory copy actually returned. -/
structure TargetView where
  alive : Bool
  block : List Nat
  copiedLen : Nat
deriving DecidableEq, Repr

/-- Modelled from the spec: result of an operation on a handle, paired with
whether the operation touched the underlying OS resource (used to state
the section 3 invariant that while `Closed` no operation other than a
further close touches the resource). -/
structure OpOut (α : Type) where
  res : Except ProcError α
  touched : Bool

/-- Modelled from the spec: result of `Close`: the handle afterwards,
whether this call released the OS resource, and the error if any. -/
structure CloseResult where
  handle : ProcessHandle
  released : Bool
  err : Option ProcError
deriving DecidableEq, Repr

/-- Modelled from the spec: `Open(pid)` (section 4.1) fails with
`NotFound` when the identifier does not correspond to a live process at
call time, with `PermissionDenied` when the rights cannot be acquired, and
otherwise yields an open handle on that PID. -/
def openProcess (pid : Nat) (liveAtCall : Bool) (accessGranted : Bool) :
    Except ProcError ProcessHandle :=
  if liveAtCall = false then Except.error ProcError.notFound
  else if accessGranted = false then Except.error ProcError.permissionDenied
  else Except.ok ⟨pid, false⟩

/-- Modelled from the spec: `Close()` (section 4.1): the first call
releases the OS resource and transitions the state to `Closed`; any call
on an already-closed handle returns the distinguished `AlreadyClosed`
error, releases nothing, and leaves the state unchanged. -/
def close (h : ProcessHandle) : CloseResult :=
  if h.closed then ⟨h, false, some ProcError.alreadyClosed⟩
  else ⟨⟨h.pid, true⟩, true, none⟩

/-- Modelled from the spec: `Terminate(exitCode)` (section 4.2): on a
closed handle the OS resource is not touched; if the target has already
exited it returns the distinguished `AlreadyDone` error; otherwise it
issues termination, which sets the exit status observed by an external
wait to `exitCode`, and returns success. -/
def terminate (h : ProcessHandle) (t : ProcState) (code : Int) :
    OpOut ProcState :=
  if h.closed then ⟨Except.error ProcError.osFailure, false⟩
  else if t.alive then ⟨Except.ok ⟨false, code⟩, true⟩
  else ⟨Except.error ProcError.alreadyDone, true⟩

/-- Modelled from the spec: `IsTerminated()` (section 4.3): a non-blocking
query returning `true` once the OS confirms exit, `false` while running,
and an error only for genuine query failures (handle invalid, query
refused by the OS). -/
def isTerminated (h : ProcessHandle) (queryOk : Bool) (alive : Bool) :
    OpOut Bool :=
  if h.closed then ⟨Except.error ProcError.osFailure, false⟩
  else if queryOk then ⟨Except.ok (!alive), true⟩
  else ⟨Except.error ProcError.osFailure, true⟩

/-- Modelled from the spec (design notes, section 9): the narrow
cross-process memory-copy boundary returns either the complete buffer or
a short-copy signal (`none`) when fewer bytes than requested were
copied. -/
def readMem (block : List Nat) (copiedLen : Nat) : Option (List Nat) :=
  if copiedLen < block.length then none else some block

/-- Modelled from the spec (section 4.4): an entry of the environment
block is kept when it is nonempty and has an `=` separator beyond a
possible leading special character (the per-drive working-directory form
`=C:=...` is tolerated); empty entries and entries without such a
separator are skipped.  The code 61 is the character `=`. -/
def keepEntry : List Nat → Bool
  | [] => false
  | _ :: rest => rest.contains 61

/-- Modelled from the spec (section 4.4): a well-formed block entry as
laid out by the target runtime is nonempty and contains no NUL byte. -/
def wfEntry (e : List Nat) : Bool :=
  !e.isEmpty && !e.contains 0

/-- Modelled from the spec (section 4.4): the parsing loop over the raw
block: bytes accumulate into the current entry (held reversed in `cur`)
until a NUL; an empty entry is the double terminator and ends the parse;
other entries are kept or skipped according to `keepEntry`; running out
of bytes without the terminator is a malformed block (`none`). -/
def parseEnvAux (cur : List Nat) : List Nat → Option (List (List Nat))
  | [] => none
  | b :: rest =>
    if b = 0 then
      match cur with
      | [] => some []
      | _ :: _ =>
        Option.map
          (fun es =>
            if keepEntry cur.reverse then cur.reverse :: es else es)
          (parseEnvAux [] rest)
    else parseEnvAux (b :: cur) rest

/-- Modelled from the spec (section 4.4): parsing a complete raw block:
a block without the double terminator is a defensive `ParseFailure`;
otherwise the kept entries are returned in block order. -/
def parseEnvBlock (bs : List Nat) : Except ProcError (List (List Nat)) :=
  match parseEnvAux [] bs with
  | none => Except.error ProcError.parseFailure
  | some es => Except.ok es

/-- Modelled from the spec (section 4.4): the raw environment block
encoding a list of entries: each entry followed by a NUL terminator, the
whole sequence ended by an empty entry (double terminator). -/
def encodeBlock (entries : List (List Nat)) : List Nat :=
  entries.foldr (fun e acc => e ++ 0 :: acc) [0]

/-- Modelled from the spec (section 4.4): `Environ()`: on a closed handle
the OS resource is not touched; if the target is already gone when the
read begins it fails with `AlreadyDone`; a short cross-process copy is
detected as a signal of process death and surfaces the same `AlreadyDone`
error without any attempt to parse the truncated block; only a complete
copy is parsed. -/
def environ (h : ProcessHandle) (t : TargetView) :
    OpOut (List (List Nat)) :=
  if h.closed then ⟨Except.error ProcError.osFailure, false⟩
  else if t.alive = false then ⟨Except.error ProcError.alreadyDone, true⟩
  else
    match readMem t.block t.copiedLen with
    | none => ⟨Except.error ProcError.alreadyDone, true⟩
    | some b =>
      match parseEnvBlock b with
      | Except.error e => ⟨Except.error e, true⟩
      | Except.ok es => ⟨Except.ok es, true⟩

/-! ### Parser lemmas -/

theorem parseEnvAux_nul_nil (rest : List Nat) :
    parseEnvAux [] (0 :: rest) = some [] := by
  simp [parseEnvAux]

theorem parseEnvAux_nul (cur rest : List Nat) (h : cur ≠ []) :
    parseEnvAux cur (0 :: rest) =
      Option.map
        (fun es => if keepEntry cur.reverse then cur.reverse :: es else es)
        (parseEnvAux [] rest) := by
  cases cur with
  | nil => exact absurd rfl h
  | cons y ys => simp [parseEnvAux]

theorem parseEnvAux_append (e : List Nat) :
    ∀ cur bs, 0 ∉ e →
      parseEnvAux cur (e ++ bs) = parseEnvAux (e.reverse ++ cur) bs := by
  induction e with
  | nil => intro cur bs _; simp
  | cons b e ih =>
    intro cur bs he
    have hb : b ≠ 0 := fun h => he (by simp [h])
    have he' : 0 ∉ e := fun h => he (List.mem_cons_of_mem b h)
    have h1 : parseEnvAux cur ((b :: e) ++ bs) =
        parseEnvAux (b :: cur) (e ++ bs) := by
      simp [parseEnvAux, hb]
    rw [h1, ih (b :: cur) bs he']
    simp

theorem parse_encodeBlock (entries : List (List Nat)) :
    (∀ e ∈ entries, e ≠ [] ∧ 0 ∉ e) →
    parseEnvAux [] (encodeBlock entries) =
      some (entries.filter keepEntry) := by
  induction entries with
  | nil => intro _; simp [encodeBlock, parseEnvAux]
  | cons e entries ih =>
    intro hW
    have hne : e ≠ [] := (hW e (List.mem_cons_self e entries)).1
    have h0 : 0 ∉ e := (hW e (List.mem_cons_self e entries)).2
    have hW' : ∀ x ∈ entries, x ≠ [] ∧ 0 ∉ x :=
      fun x hx => hW x (List.mem_cons_of_mem e hx)
    have hEnc : encodeBlock (e :: entries) = e ++ 0 :: encodeBlock entries := by
      simp [encodeBlock]
    rw [hEnc, parseEnvAux_append e [] (0 :: encodeBlock entries) h0,
      List.append_nil,
      parseEnvAux_nul e.reverse (encodeBlock entries) (by simpa using hne),
      ih hW']
    rw [List.reverse_reverse]
    cases hk : keepEntry e <;> simp [List.filter_cons, hk]

theorem parseEnvAux_valid :
    ∀ bs cur es, parseEnvAux cur bs = some es →
      ∀ e ∈ es, keepEntry e = true := by
  intro bs
  induction bs with
  | nil => intro cur es h _ _; simp [parseEnvAux] at h
  | cons b rest ih =>
    intro cur es h
    by_cases hb : b = 0
    · subst hb
      cases cur with
      | nil =>
        rw [parseEnvAux_nul_nil] at h
        cases h
        intro e he
        simp at he
      | cons y ys =>
        rw [parseEnvAux_nul (y :: ys) rest (by simp)] at h
        cases hrec : parseEnvAux [] rest with
        | none => rw [hrec] at h; simp at h
        | some es' =>
          rw [hrec] at h
          simp only [Option.map_some'] at h
          have hall := ih [] es' hrec
          intro e he
          by_cases hk : keepEntry (y :: ys).reverse = true
          · rw [if_pos hk] at h
            cases h
            rcases List.mem_cons.mp he with h1 | h1
            · rw [h1]; exact hk
            · exact hall e h1
          · rw [if_neg hk] at h
            cases h
            exact hall e he
    · have h1 : parseEnvAux cur (b :: rest) = parseEnvAux (b :: cur) rest := by
        simp [parseEnvAux, hb]
      rw [h1] at h
      exact ih (b :: cur) es h

/-! ### Claim theorems -/

/-- C1: whenever the cross-process memory copy underlying `Environ` returns
fewer bytes than requested, `Environ` returns the distinguished
already-done error and never parses the truncated block; every `Environ`
call on a well-formed target block returns either a fully valid sequence
of kept `NAME=VALUE` entries or the already-done error, never partial or
garbled data. -/
theorem environ_never_torn (h : ProcessHandle) (t : TargetView)
    (entries : List (List Nat))
    (hO : h.closed = false)
    (hB : t.block = encodeBlock entries)
    (hW : ∀ e ∈ entries, e ≠ [] ∧ 0 ∉ e) :
    (t.copiedLen < t.block.length →
      (environ h t).res = Except.error ProcError.alreadyDone) ∧
    ((environ h t).res = Except.error ProcError.alreadyDone ∨
      ∃ es, (environ h t).res = Except.ok es ∧
        ∀ e ∈ es, keepEntry e = true) := by
  constructor
  · intro hshort
    by_cases ha : t.alive = false
    · simp [environ, hO, ha]
    · simp [environ, hO, ha, readMem, hshort]
  · by_cases ha : t.alive = false
    · left; simp [environ, hO, ha]
    · by_cases hs : t.copiedLen < t.block.length
      · left; simp [environ, hO, ha, readMem, hs]
      · right
        have hs' : ¬ t.copiedLen < (encodeBlock entries).length := hB ▸ hs
        refine ⟨entries.filter keepEntry, ?_, ?_⟩
        · simp [environ, hO, ha, readMem, hs', hB, parseEnvBlock,
            parse_encodeBlock entries hW]
        · intro e he
          exact (List.mem_filter.mp he).2

theorem environ_never_torn_witness :
    (environ ⟨5, false⟩ ⟨true, encodeBlock [[65, 61, 49]], 3⟩).res =
      Except.error ProcError.alreadyDone :=
  (environ_never_torn ⟨5, false⟩ ⟨true, encodeBlock [[65, 61, 49]], 3⟩
    [[65, 61, 49]] rfl rfl (by decide)).1 (by decide)

/-- C2: the environment-block parser, given a complete raw block, treats
it as a sequence of NUL-terminated entries ended by an empty entry,
skips entries that are empty or lack an `=` separator (tolerating the
leading-special-character per-drive form) without aborting, and returns
the remaining entries in block order. -/
theorem parse_complete_block (entries : List (List Nat))
    (hW : ∀ e ∈ entries, e ≠ [] ∧ 0 ∉ e) :
    parseEnvBlock (encodeBlock entries) =
      Except.ok (entries.filter keepEntry) := by
  simp [parseEnvBlock, parse_encodeBlock entries hW]

theorem parse_complete_block_witness :
    parseEnvBlock
        (encodeBlock [[65, 61, 49], [66, 66], [61, 67, 61, 68], [61, 69]]) =
      Except.ok [[65, 61, 49], [61, 67, 61, 68]] := by
  rw [parse_complete_block [[65, 61, 49], [66, 66], [61, 67, 61, 68], [61, 69]]
    (by decide)]
  rfl

/-- C3: on a handle to a process alive throughout the read, `Environ`
succeeds and returns the full parsed sequence in block order; in
particular a known `KEY=VALUE` pair present in the launch environment is
contained in the result. -/
theorem environ_live_contains_pair (h : ProcessHandle) (t : TargetView)
    (entries : List (List Nat)) (pair : List Nat)
    (hO : h.closed = false) (hA : t.alive = true)
    (hC : t.block.length ≤ t.copiedLen)
    (hB : t.block = encodeBlock entries)
    (hW : ∀ e ∈ entries, e ≠ [] ∧ 0 ∉ e)
    (hP : pair ∈ entries) (hK : keepEntry pair = true) :
    (environ h t).res = Except.ok (entries.filter keepEntry) ∧
      pair ∈ entries.filter keepEntry := by
  have hs : ¬ t.copiedLen < t.block.length := not_lt.mpr hC
  have hs' : ¬ t.copiedLen < (encodeBlock entries).length := hB ▸ hs
  have ha : ¬ t.alive = false := by simp [hA]
  constructor
  · simp [environ, hO, ha, readMem, hs', hB, parseEnvBlock,
      parse_encodeBlock entries hW]
  · exact List.mem_filter.mpr ⟨hP, hK⟩

theorem environ_live_contains_pair_witness :
    (environ ⟨5, false⟩ ⟨true, encodeBlock [[75, 61, 86]], 5⟩).res =
      Except.ok [[75, 61, 86]] ∧
    [75, 61, 86] ∈ [[75, 61, 86]] := by
  have h := environ_live_contains_pair ⟨5, false⟩
    ⟨true, encodeBlock [[75, 61, 86]], 5⟩ [[75, 61, 86]] [75, 61, 86]
    rfl rfl (by decide) rfl (by decide) (by decide) (by decide)
  exact ⟨by rw [h.1]; rfl, by simp⟩

/-- C4: `Terminate(exitCode)` on an open handle to a live process returns
success, and the resulting process state observed by an external wait has
exit status equal to `exitCode`. -/
theorem terminate_live (h : ProcessHandle) (t : ProcState) (c : Int)
    (hO : h.closed = false) (hA : t.alive = true) :
    (terminate h t c).res = Except.ok ⟨false, c⟩ := by
  simp [terminate, hO, hA]

theorem terminate_live_witness :
    (terminate ⟨5, false⟩ ⟨true, 0⟩ 42).res = Except.ok ⟨false, 42⟩ :=
  terminate_live ⟨5, false⟩ ⟨true, 0⟩ 42 rfl rfl

/-- C5: `Terminate` on an open handle whose target has already exited
returns the distinguished already-done error, never a generic OS error;
in particular a second `Terminate` after the first has taken effect
yields the already-done error. -/
theorem terminate_already_done (h : ProcessHandle) (t : ProcState)
    (c₁ c₂ : Int) (hO : h.closed = false) :
    (t.alive = false →
      (terminate h t c₁).res = Except.error ProcError.alreadyDone) ∧
    (∀ t', t.alive = true → (terminate h t c₁).res = Except.ok t' →
      (terminate h t' c₂).res = Except.error ProcError.alreadyDone) := by
  constructor
  · intro ha; simp [terminate, hO, ha]
  · intro t' ha hr
    have h1 : (terminate h t c₁).res = Except.ok ⟨false, c₁⟩ := by
      simp [terminate, hO, ha]
    rw [h1] at hr
    injection hr with h2
    subst h2
    simp [terminate, hO]

theorem terminate_already_done_witness :
    (terminate ⟨5, false⟩ ⟨false, 3⟩ 7).res =
        Except.error ProcError.alreadyDone ∧
    (terminate ⟨5, false⟩ ⟨false, 42⟩ 9).res =
        Except.error ProcError.alreadyDone :=
  ⟨(terminate_already_done ⟨5, false⟩ ⟨false, 3⟩ 7 9 rfl).1 rfl,
   (terminate_already_done ⟨5, false⟩ ⟨true, 0⟩ 42 9 rfl).2 ⟨false, 42⟩
     rfl rfl⟩

/-- C6: the first `Close` on an open handle releases the OS resource,
transitions the state to closed and returns success; a subsequent `Close`
returns the distinguished already-closed error and does not release the
resource a second time. -/
theorem close_then_close (h : ProcessHandle) (hO : h.closed = false) :
    (close h).err = none ∧ (close h).released = true ∧
    (close h).handle.closed = true ∧
    (close (close h).handle).err = some ProcError.alreadyClosed ∧
    (close (close h).handle).released = false := by
  simp [close, hO]

theorem close_then_close_witness :
    (close (⟨5, false⟩ : ProcessHandle)).err = none ∧
    (close (⟨5, false⟩ : ProcessHandle)).released = true ∧
    (close (close (⟨5, false⟩ : ProcessHandle)).handle).handle.closed =
        true ∧
    (close (close (⟨5, false⟩ : ProcessHandle)).handle).err =
        some ProcError.alreadyClosed ∧
    (close (close (⟨5, false⟩ : ProcessHandle)).handle).released = false := by
  have h := close_then_close ⟨5, false⟩ rfl
  exact ⟨h.1, h.2.1, by simp [close], h.2.2.2.1, h.2.2.2.2⟩

/-- C7: `Open` on a PID with no live process at call time fails with the
not-found error, which is a distinct error kind from the
permission-denied acquisition failure. -/
theorem open_dead_pid_not_found (pid : Nat) (accessGranted : Bool) :
    openProcess pid false accessGranted =
        Except.error ProcError.notFound ∧
    ProcError.notFound ≠ ProcError.permissionDenied := by
  exact ⟨by simp [openProcess], by simp⟩

/-- C8: `IsTerminated` on an open handle is a non-blocking query that
returns `false` while the target runs and `true` once it has exited, and
errors only for genuine query failures; a handle freshly opened on a live
process reports `false` until that process exits. -/
theorem is_terminated_query (pid : Nat) (h : ProcessHandle)
    (hOpen : openProcess pid true true = Except.ok h) :
    h.closed = false ∧
    (isTerminated h true true).res = Except.ok false ∧
    (isTerminated h true false).res = Except.ok true ∧
    (∀ a, (isTerminated h false a).res =
      Except.error ProcError.osFailure) := by
  have hred : openProcess pid true true = Except.ok ⟨pid, false⟩ := rfl
  rw [hred] at hOpen
  injection hOpen with h2
  subst h2
  exact ⟨rfl, rfl, rfl, fun a => rfl⟩

theorem is_terminated_query_witness :
    (isTerminated ⟨5, false⟩ true true).res = Except.ok false :=
  (is_terminated_query 5 ⟨5, false⟩ rfl).2.1

/-- C9: the handle state machine: the state is exactly open or closed,
the open-to-closed transition is taken exactly once by a successful close
(which releases the resource), and while closed a further close fails
distinctly, leaves the state unchanged and no operation touches the
underlying OS resource. -/
theorem handle_state_machine (h : ProcessHandle) (hC : h.closed = true) :
    (h.closed = true ∨ h.closed = false) ∧
    (close h).handle = h ∧
    (close h).released = false ∧
    (close h).err = some ProcError.alreadyClosed ∧
    (∀ t c, (terminate h t c).touched = false) ∧
    (∀ q a, (isTerminated h q a).touched = false) ∧
    (∀ t, (environ h t).touched = false) ∧
    (∀ g : ProcessHandle, g.closed = false →
      (close g).handle.closed = true ∧ (close g).released = true ∧
        (close g).err = none) := by
  refine ⟨Or.inl hC, ?_, ?_, ?_, ?_, ?_, ?_, ?_⟩
  · simp [close, hC]
  · simp [close, hC]
  · simp [close, hC]
  · intro t c; simp [terminate, hC]
  · intro q a; simp [isTerminated, hC]
  · intro t; simp [environ, hC]
  · intro g hg
    exact ⟨by simp [close, hg], by simp [close, hg], by simp [close, hg]⟩

theorem handle_state_machine_witness :
    (close ⟨7, true⟩).released = false ∧
    (close ⟨7, false⟩).handle.closed = true :=
  ⟨(handle_state_machine ⟨7, true⟩ rfl).2.2.1,
   ((handle_state_machine ⟨7, true⟩ rfl).2.2.2.2.2.2.2 ⟨7, false⟩ rfl).1⟩

/-- C10: the distinguished errors match the Go standard-library sentinels
under `errors.Is`: a second close matches `fs.ErrClosed`, open on a
nonexistent PID matches `syscall.ESRCH`, and both `Terminate` and
`Environ` on an already-exited process yield the same error, matching
`os.ErrProcessDone`. -/
theorem error_sentinels (g : ProcessHandle) (t : ProcState)
    (tv : TargetView) (pid : Nat) (acc : Bool) (c : Int)
    (hO : g.closed = false) (hT : t.alive = false)
    (hE : tv.alive = false) :
    (∀ e, (close (close ⟨pid, false⟩).handle).err = some e →
      errorsIs e Sentinel.fsErrClosed = true) ∧
    (∀ e, openProcess pid false acc = Except.error e →
      errorsIs e Sentinel.syscallESRCH = true) ∧
    (∃ e, (terminate g t c).res = Except.error e ∧
      (environ g tv).res = Except.error e ∧
      errorsIs e Sentinel.osErrProcessDone = true) := by
  refine ⟨?_, ?_, ?_⟩
  · intro e he
    have h1 : (close (close (⟨pid, false⟩ : ProcessHandle)).handle).err =
        some ProcError.alreadyClosed := by simp [close]
    rw [h1] at he
    injection he with h2
    rw [← h2]
    rfl
  · intro e he
    have h1 : openProcess pid false acc =
        Except.error ProcError.notFound := by simp [openProcess]
    rw [h1] at he
    injection he with h2
    rw [← h2]
    rfl
  · exact ⟨ProcError.alreadyDone, by simp [terminate, hO, hT],
      by simp [environ, hO, hE], rfl⟩

theorem error_sentinels_witness :
    errorsIs ProcError.notFound Sentinel.syscallESRCH = true :=
  (error_sentinels ⟨5, false⟩ ⟨false, 0⟩ ⟨false, [], 0⟩ 9 true 7
    rfl rfl rfl).2.1 ProcError.notFound rfl

end ProcWin
